import Mathlib

/-!
Verification development for the in-archive tabular data extraction engine
of the cldf_meta repository (module clld_meta/zipdata.py).

The Python source is shallowly embedded:

* JSON scalar values appearing in metadata documents become the type JVal;
  Python dictionaries of dialect settings become association lists
  (earlier entries shadow later ones, mirroring lookup in a dict whose keys
  are unique).
* Python exceptions raised while fully consuming the row generator become
  an explicit Except return value (the generator is lazy, but every claim
  below concerns a consumer that iterates the whole sequence, for which
  strict list semantics coincide).
* csv.reader applied to a zip entry is abstracted as the list of parsed
  rows stored for that entry: none of the claims concern the byte-level
  CSV parse itself, only the row pipeline downstream of it.
* pathlib.Path values become lists of path segments.
-/

/-- Scalar JSON values that occur in CLDF metadata dialect objects. -/
inductive JVal where
  | null
  | bool (b : Bool)
  | str (s : String)
  | num (n : Int)
deriving DecidableEq, Repr

/-- A Python dict with string keys and JSON scalar values, modelled as an
association list whose earlier entries shadow later ones. -/
abbrev JDict := List (String × JVal)

/-- Dictionary lookup, dict.get(k): none when the key is absent. -/
def dictGet (d : JDict) (k : String) : Option JVal :=
  (d.find? (fun p => decide (p.1 = k))).map (fun p => p.2)

/-- collections.ChainMap lookup: the value of the first mapping in the chain
that contains the key (a stored null still counts as contained). -/
def chainGet : List JDict → String → Option JVal
  | [], _ => none
  | d :: ds, k =>
    match dictGet d k with
    | some v => some v
    | none => chainGet ds k

/-- Python truthiness of a JSON scalar. -/
def truthyV : JVal → Bool
  | .null => false
  | .bool b => b
  | .str s => decide (s ≠ "")
  | .num n => decide (n ≠ 0)

/-- Python truthiness of dict.get(k): a missing key gives None, which is
falsy. -/
def truthy : Option JVal → Bool
  | none => false
  | some v => truthyV v

/-- Python equality test `v == 1` for a JSON scalar (True == 1 in Python). -/
def pyEqOne : JVal → Bool
  | .num n => decide (n = 1)
  | .bool b => b
  | _ => false

/-- The condition under which the assertion
`assert (hrc := dialect.get('headerRowCount')) is None or hrc != 1`
in ZipDataReader.iterrows raises: the resolved value is present, not null,
and equal to 1.  (A stored JSON null is returned as Python None.) -/
def hrcAssertFails (v : Option JVal) : Bool :=
  match v with
  | none => false
  | some .null => false
  | some v => pyEqOne v

/-- Membership test `trim in \x7bTrue, 'true', 'end'\x7d` deciding whether
right-trimming is active (Python's True equals 1, so the integer 1 is also
a member of that set). -/
def inTrimRightSet (v : JVal) : Bool :=
  decide (v = .bool true ∨ v = .num 1 ∨ v = .str "true" ∨ v = .str "end")

/-- Python exceptions that the embedded code can raise while a consumer
drains the row generator. -/
inductive PyErr where
  | assertionError (msg : String)
  | attributeError
  | typeError
  | keyError
  | runtimeError
  | badZipFile
deriving DecidableEq, Repr

/-- Interpretation of a resolved dialect field used as an integer count
(`skip_count > 0` comparisons, islice bounds).  Python booleans are
integers; a missing key would be a KeyError on the ChainMap, any other
type raises TypeError when compared against 0. -/
def asInt : Option JVal → Except PyErr Int
  | some (.num n) => .ok n
  | some (.bool b) => .ok (if b then 1 else 0)
  | none => .error .keyError
  | some _ => .error .typeError

/-- Outcomes of running a piece of the embedded code can be compared for
equality whenever errors and results can. -/
instance {ε α : Type} [DecidableEq ε] [DecidableEq α] : DecidableEq (Except ε α) :=
  fun a b =>
    match a, b with
    | .error e, .error f => decidable_of_iff (e = f) (by simp)
    | .error _, .ok _ => isFalse (by simp)
    | .ok _, .error _ => isFalse (by simp)
    | .ok x, .ok y => decidable_of_iff (x = y) (by simp)

/-- A parsed CSV row: the list of cell strings produced by csv.reader. -/
abbrev Row := List String

/-- clld_meta.zipdata.skip_rows: drop the first skip_count rows
(islice(rows, skip_count, None) when the count is positive). -/
def skip_rows (rows : List Row) (skip_count : Int) : List Row :=
  if skip_count > 0 then rows.drop skip_count.toNat else rows

/-- clld_meta.zipdata.trim_column_ends: the source evaluates row.rstrip()
for each row, but csv.reader yields lists, and a Python list has no
rstrip method — pulling any element from this generator raises
AttributeError.  An empty input produces an empty sequence because the
generator body never runs. -/
def trim_column_ends (rows : List Row) : Except PyErr (List Row) :=
  match rows with
  | [] => .ok []
  | _ :: _ => .error .attributeError

/-- clld_meta.zipdata.skip_blank_rows: keep rows with at least one
non-empty cell (any(row) on a list of strings). -/
def skip_blank_rows (rows : List Row) : List Row :=
  rows.filter (fun row => row.any (fun c => decide (c ≠ "")))

/-- The per-row keep condition of skip_comments:
`not row or not row[0].startswith(comment_str)`. -/
def commentKeep (comment_str : String) (row : Row) : Bool :=
  match row with
  | [] => true
  | c :: _ => decide (¬ comment_str.toList.isPrefixOf c.toList)

/-- clld_meta.zipdata.skip_comments applied to the resolved commentPrefix
value.  A falsy prefix (null, empty string, False, 0) disables the filter;
a truthy non-string prefix would raise TypeError at the first
row[0].startswith call, i.e. at the first non-empty row. -/
def skip_comments (rows : List Row) (comment : JVal) : Except PyErr (List Row) :=
  if truthyV comment then
    match comment with
    | .str s => .ok (rows.filter (commentKeep s))
    | _ => if rows.all (fun r => r.isEmpty) then .ok rows else .error .typeError
  else
    .ok rows

/-- clld_meta.zipdata.skip_columns: drop the first skip_count cells of every
row when the count is positive. -/
def skip_columns (rows : List Row) (skip_count : Int) : List Row :=
  if skip_count > 0 then rows.map (fun row => row.drop skip_count.toNat) else rows

/-- pycldf.terms.URL, the namespace root of CLDF semantic identifiers. -/
def TERMS_URL : String := "http://cldf.clld.org/v1.0/terms.rdf"

/-- One entry of a table's tableSchema.columns list: the raw header name
and the optional semantic propertyUrl. -/
structure ColumnSpec where
  name : String
  propertyUrl : Option String
deriving DecidableEq, Repr

/-- A mutable Python dict with string keys and values, as an insertion-order
association list; inserting an existing key replaces its value in place. -/
abbrev SDict := List (String × String)

/-- Dict lookup for SDict. -/
def dictGetS (d : SDict) (k : String) : Option String :=
  (d.find? (fun p => decide (p.1 = k))).map (fun p => p.2)

/-- Python dict item assignment d[k] = v: replaces the value of an existing
key in place, otherwise appends at the end (insertion order). -/
def dictInsertS (d : SDict) (k v : String) : SDict :=
  if d.any (fun p => decide (p.1 = k)) then
    d.map (fun p => if p.1 = k then (k, v) else p)
  else
    d ++ [(k, v)]

/-- The col_urls dict of rename_columns: semantic URL of each requested
column name mapped back to that name. -/
def col_urls (column_names : List String) : SDict :=
  column_names.foldl (fun d c => dictInsertS d (TERMS_URL ++ "#" ++ c) c) []

/-- The name_map dict of rename_columns: raw declared column name mapped to
the requested semantic name, for every declared column whose propertyUrl is
truthy and among the requested semantic URLs. -/
def name_map (column_specs : List ColumnSpec) (column_names : List String) : SDict :=
  let cu := col_urls column_names
  column_specs.foldl
    (fun d col =>
      match col.propertyUrl with
      | some purl =>
        match dictGetS cu purl with
        | some semantic => if purl = "" then d else dictInsertS d col.name semantic
        | none => d
      | none => d)
    []

/-- Header renaming: name_map.get(orig_name, orig_name) for each header
cell. -/
def mapHeader (nm : SDict) (hrow : Row) : List String :=
  hrow.map (fun n => (dictGetS nm n).getD n)

/-- The dict comprehension emitting one Row mapping per data row: zip the
header names with the cells and keep a pair only when the name is
non-empty, the cell is non-empty and the name was requested. -/
def rowDict (header : List String) (column_names : List String) (row : Row) : SDict :=
  (header.zip row).foldl
    (fun d p =>
      if p.1 ≠ "" ∧ p.2 ≠ "" ∧ p.1 ∈ column_names then dictInsertS d p.1 p.2 else d)
    []

/-- clld_meta.zipdata.rename_columns: the first raw row (if any) becomes the
header after renaming via name_map; every later raw row is emitted as a
Row mapping.  An empty input yields no rows (next(row_i, ()) falls back to
an empty header and the data loop never runs). -/
def rename_columns (column_specs : List ColumnSpec) (column_names : List String)
    (raw_rows : List Row) : List SDict :=
  let nm := name_map column_specs column_names
  match raw_rows with
  | [] => []
  | hrow :: rest => rest.map (rowDict (mapHeader nm hrow) column_names)

/-- The contents a zip archive stores for one entry, abstracted at the level
the claims need: either a CSV file given as its parsed rows, or a nested
zip archive given as its listing (inner file name paired with that inner
CSV file's parsed rows). -/
inductive EntryData where
  | csv (rows : List Row)
  | zipArc (entries : List (String × List Row))
deriving DecidableEq, Repr

/-- zipfile.ZipInfo, reduced to the one attribute iterrows reads. -/
structure ZipInfo where
  filename : String
deriving DecidableEq, Repr

/-- A pathlib.PurePath, as its normalized segments. -/
abbrev SegPath := List String

/-- Split a string on slashes, accumulating the current segment. -/
def splitSlashAux : List Char → List Char → List String
  | [], acc => [String.mk acc.reverse]
  | c :: rest, acc =>
    if c = '/' then String.mk acc.reverse :: splitSlashAux rest []
    else splitSlashAux rest (c :: acc)

/-- The normalized segments of pathlib.Path(s): split on slashes, dropping
empty segments and single-dot segments exactly as pathlib does. -/
def pathOfString (s : String) : SegPath :=
  (splitSlashAux s.toList []).filter (fun seg => decide (seg ≠ "" ∧ seg ≠ "."))

/-- pathlib's joining root / s: append the segments of the (relative)
string s to root. -/
def pathJoin (root : SegPath) (s : String) : SegPath :=
  root ++ pathOfString s

/-- Path(relpath).name: the final path component. -/
def pathName (s : String) : String :=
  (pathOfString s).getLast?.getD ""

/-- The while loop of iterrows:
while relpath.startswith('../'): relpath, root = relpath[3:], root.parent.
Operates on the character list of relpath; Path.parent drops the last
segment. -/
def stripParentsAux : List Char → SegPath → List Char × SegPath
  | '.' :: '.' :: '/' :: rest, root => stripParentsAux rest root.dropLast
  | cs, root => (cs, root)

/-- Whether a character list starts with the parent-directory marker. -/
def leadsParent : List Char → Bool
  | '.' :: '.' :: '/' :: _ => true
  | _ => false

/-- Python str.endswith, via character lists (s.endswith(suf) holds exactly
when the reversed suffix is a prefix of the reversed string). -/
def strEndsWith (s suf : String) : Bool :=
  suf.toList.reverse.isPrefixOf s.toList.reverse

/-- The fully parsed CLDF metadata document, reduced to the parts
ZipDataReader reads.  A dialect key that is absent (or whose value is
falsy, which the source coerces to an empty dict) is the empty list, which
behaves identically in every ChainMap lookup. -/
structure TableDesc where
  conformsTo : Option String
  url : String
  dialect : JDict
  columns : List ColumnSpec
deriving DecidableEq, Repr

structure CldfMd where
  dialect : JDict
  tables : List TableDesc
deriving DecidableEq, Repr

/-- clld_meta.zipdata.ZipDataReader: the outer zip file (entry name mapped
to its stored contents), the precomputed zip_infos index (normalized path
mapped to the entry descriptor), the metadata document's base directory
and the parsed document. -/
structure ZipDataReader where
  zip_file : List (String × EntryData)
  zip_infos : List (SegPath × ZipInfo)
  md_root : SegPath
  cldf_md : CldfMd
deriving DecidableEq, Repr

/-- Lookup in the zip_infos path index. -/
def pathGet (infos : List (SegPath × ZipInfo)) (k : SegPath) : Option ZipInfo :=
  (infos.find? (fun p => decide (p.1 = k))).map (fun p => p.2)

/-- Opening an entry of the outer zip by its file name. -/
def entryGet (zf : List (String × EntryData)) (k : String) : Option EntryData :=
  (zf.find? (fun p => decide (p.1 = k))).map (fun p => p.2)

/-- The built-in default dialect of ZipDataReader.iterrows (headerRowCount,
lineTerminators and trim are deliberately left unset there). -/
def default_dialect : JDict :=
  [("commentPrefix", .str "#"),
   ("delimiter", .str ","),
   ("doubleQuote", .bool true),
   ("encoding", .str "utf-8"),
   ("header", .bool true),
   ("quoteChar", .str "\""),
   ("skipBlankRows", .bool false),
   ("skipColumns", .num 0),
   ("skipRows", .num 0),
   ("skipInitialSpace", .bool false)]

/-- The ChainMap(table.get('dialect') or \x7b\x7d, dataset_dialect,
default_dialect) lookup of one dialect field. -/
def resolve_dialect (table : TableDesc) (md : CldfMd) (k : String) : Option JVal :=
  chainGet [table.dialect, md.dialect, default_dialect] k

/-- ZipDataReader.get_table, with the raised ValueError rendered as none
(iterrows catches it and returns immediately). -/
def get_table (md : CldfMd) (name_or_url : String) : Option TableDesc :=
  md.tables.find? (fun t => decide (t.conformsTo.getD "" = TERMS_URL ++ "#" ++ name_or_url))

/-- The zip_info lookup of iterrows: try the resolved path with a .zip
suffix appended, fall back to the path as-is (ZipInfo objects are always
truthy, so Python's or is exactly this Option fallback). -/
def locate_zip_info (infos : List (SegPath × ZipInfo)) (root : SegPath)
    (relpath : String) : Option ZipInfo :=
  match pathGet infos (pathJoin root (relpath ++ ".zip")) with
  | some zi => some zi
  | none => pathGet infos (pathJoin root relpath)

/-- Whether right-trimming is active:
trim = dialect.get('trim'); if trim is not None the membership test decides,
otherwise right-trim is off (a stored JSON null reads back as Python
None). -/
def trimRightActive (trimv : Option JVal) : Bool :=
  match trimv with
  | none => false
  | some .null => false
  | some v => inTrimRightSet v

/-- ZipDataReader.iterrows, as observed by a consumer that drains the whole
generator: either the list of emitted Row mappings or the Python exception
that iteration raises.  The encoding, quoteChar, doubleQuote and delimiter
fields only configure the abstracted byte-level csv parse and therefore do
not appear beyond dialect resolution. -/
def iterrows (r : ZipDataReader) (name_or_url : String)
    (column_names : List String) : Except PyErr (List SDict) :=
  match get_table r.cldf_md name_or_url with
  | none => .ok []
  | some table =>
    let dget := fun k => resolve_dialect table r.cldf_md k
    if truthy (dget "header") = false then
      .error (.assertionError "dataset without header detected")
    else if hrcAssertFails (dget "headerRowCount") then
      .error (.assertionError "dataset with odd header detected")
    else
      let trim_rght := trimRightActive (dget "trim")
      let sp := stripParentsAux table.url.toList r.md_root
      let relpath : String := String.mk sp.1
      let root := sp.2
      match locate_zip_info r.zip_infos root relpath with
      | none => .ok []
      | some zip_info =>
        match entryGet r.zip_file zip_info.filename with
        | none => .error .keyError
        | some data => do
          let raw_rows ←
            if strEndsWith zip_info.filename ".zip" then
              match data with
              | .zipArc inner =>
                match inner.find? (fun e => strEndsWith e.1 (pathName relpath)) with
                | none => Except.error PyErr.runtimeError
                | some e => Except.ok e.2
              | .csv _ => Except.error PyErr.badZipFile
            else
              match data with
              | .csv rows => Except.ok rows
              | .zipArc _ => Except.error PyErr.badZipFile
          let nskiprows ← asInt (dget "skipRows")
          let nskipcols ← asInt (dget "skipColumns")
          let rows := skip_rows raw_rows nskiprows
          let rows ← if trim_rght then trim_column_ends rows else Except.ok rows
          let rows := if truthy (dget "skipBlankRows") then skip_blank_rows rows else rows
          let rows ← skip_comments rows ((dget "commentPrefix").getD JVal.null)
          let rows := skip_columns rows nskipcols
          Except.ok (rename_columns table.columns column_names rows)

/-- A table declaration used to exercise iterrows: declared as the
ValueTable, backed by values.csv, with one declared column mapping the raw
header ID to the semantic id property. -/
def simpleTable (tdial : JDict) : TableDesc :=
  { conformsTo := some (TERMS_URL ++ "#ValueTable"),
    url := "values.csv",
    dialect := tdial,
    columns := [{ name := "ID", propertyUrl := some (TERMS_URL ++ "#id") }] }

/-- A one-table metadata document around simpleTable. -/
def mkSimpleMd (tdial : JDict) : CldfMd :=
  { dialect := [], tables := [simpleTable tdial] }

/-- A reader whose archive stores values.csv as a plain CSV entry holding
the given parsed rows. -/
def mkSimpleReader (tdial : JDict) (rows : List Row) : ZipDataReader :=
  { zip_file := [("values.csv", .csv rows)],
    zip_infos := [(["values.csv"], { filename := "values.csv" })],
    md_root := [],
    cldf_md := mkSimpleMd tdial }

/-- A reader whose archive index is empty: the declared values.csv path of
simpleTable resolves to neither values.csv.zip nor values.csv. -/
def mkMissingReader (tdial : JDict) : ZipDataReader :=
  { zip_file := [], zip_infos := [], md_root := [], cldf_md := mkSimpleMd tdial }

/-- The declared columns of the nested-archive test table. -/
def nestedCols : List ColumnSpec :=
  [{ name := "ID", propertyUrl := some (TERMS_URL ++ "#id") }]

/-- A metadata document declaring a ValueTable whose url resolves to
a/b.csv. -/
def mkNestedMd : CldfMd :=
  { dialect := [],
    tables := [{ conformsTo := some (TERMS_URL ++ "#ValueTable"),
                 url := "a/b.csv",
                 dialect := [],
                 columns := nestedCols }] }

/-- A reader whose archive index contains only a/b.csv.zip, stored as a
nested zip archive with the given inner listing; a/b.csv itself is absent,
so iterrows must take the nested single-file-archive fallback. -/
def mkNestedReader (entries : List (String × List Row)) : ZipDataReader :=
  { zip_file := [("a/b.csv.zip", .zipArc entries)],
    zip_infos := [(["a", "b.csv.zip"], { filename := "a/b.csv.zip" })],
    md_root := [],
    cldf_md := mkNestedMd }

/-- The rows surviving the comment filter under the built-in default
dialect, whose commentPrefix is the hash sign. -/
def dropHashComments (rows : List Row) : List Row :=
  rows.filter (commentKeep "#")

/-- The round-trip column descriptors of the spec: my_id_col carries the id
property URL, my_language_col the languageReference property URL, and
my_custom_col carries no property URL at all. -/
def rtSpecs : List ColumnSpec :=
  [{ name := "my_id_col", propertyUrl := some (TERMS_URL ++ "#id") },
   { name := "my_language_col", propertyUrl := some (TERMS_URL ++ "#languageReference") },
   { name := "my_custom_col", propertyUrl := none }]

/-- Python str.startswith via character lists. -/
def strStartsWith (s p : String) : Bool :=
  p.toList.isPrefixOf s.toList

/-- A parsed JSON document, reduced to the single member that
get_cldf_json inspects (the document is returned whole on success, so
nothing else is observable). -/
structure JsonDoc where
  conformsTo : Option JVal
deriving DecidableEq, Repr

/-- The argument of get_cldf_json: a seekable byte stream, given as its raw
bytes together with the outcome of json.load on the whole stream after
seeking back to the start (none when parsing raises an exception). -/
structure PyFile where
  bytes : List Nat
  parsed : Option JsonDoc
deriving DecidableEq, Repr

/-- The ASCII whitespace bytes stripped by bytes.lstrip. -/
def isWsByte (b : Nat) : Bool :=
  decide (b = 32 ∨ b = 9 ∨ b = 10 ∨ b = 13 ∨ b = 11 ∨ b = 12)

/-- The profile check of get_cldf_json:
json_data.get(dc-conformsTo member, empty default).startswith(TERMS_URL).
An absent member checks the empty string, which never matches; a present
non-string member raises AttributeError, which the surrounding handler
turns into the same negative outcome. -/
def conformsOK (d : JsonDoc) : Bool :=
  match d.conformsTo with
  | some (.str s) => strStartsWith s TERMS_URL
  | _ => false

/-- clld_meta.zipdata.get_cldf_json: read the first ten bytes, left-strip
whitespace and require a leading opening brace (byte 123); then parse the
whole stream and require the profile check; every failing path returns
None, and the blanket exception handler keeps any error inside from
propagating. -/
def get_cldf_json (f : PyFile) : Option JsonDoc :=
  if ((f.bytes.take 10).dropWhile isWsByte).head? ≠ some 123 then
    none
  else
    match f.parsed with
    | none => none
    | some json_data => if conformsOK json_data then some json_data else none

/-- A metadata document whose document-level dialect sets only the
delimiter, to a semicolon. -/
def mdSemi : CldfMd :=
  { dialect := [("delimiter", JVal.str ";")], tables := [] }

/-- A table with no dialect overrides of its own. -/
def tblPlain : TableDesc :=
  { conformsTo := none, url := "t.csv", dialect := [], columns := [] }

/-- A table overriding only the delimiter, to a comma. -/
def tblComma : TableDesc :=
  { conformsTo := none, url := "t.csv", dialect := [("delimiter", JVal.str ",")], columns := [] }

/-- C1: the claim says dialect resolution fails fast iff the resolved
header is false or headerRowCount is present and not equal to 1.  The
source contradicts its own intent (the assertion message calls the
failing case an odd header, and headerRowCount equal to 1 is the one
header shape the reader supports): the assertion condition is inverted, so
iterrows raises AssertionError exactly when headerRowCount is 1 and
proceeds to extract rows when it is 2, while the header-false half does
fail fast as specified.  This theorem evaluates the embedded code at the
three inputs. -/
theorem headerRowCount_assert_inverted_eval :
    iterrows (mkSimpleReader [("headerRowCount", JVal.num 1)] [["ID"], ["v1"]])
        "ValueTable" ["id"]
      = Except.error (PyErr.assertionError "dataset with odd header detected") ∧
    iterrows (mkSimpleReader [("headerRowCount", JVal.num 2)] [["ID"], ["v1"]])
        "ValueTable" ["id"]
      = Except.ok [[("id", "v1")]] ∧
    iterrows (mkSimpleReader [("header", JVal.bool false)] [["ID"], ["v1"]])
        "ValueTable" ["id"]
      = Except.error (PyErr.assertionError "dataset without header detected") :=
  ⟨by decide, by decide, by decide⟩

/-- C2: the five pipeline steps are indeed composed in the claimed order,
demonstrated by the first conjunct (skipRows drops the first raw row, the
blank filter and the comment filter see rows before column skipping, the
first survivor is the header and later survivors are data), but the
claimed trim step is broken in the source: when right-trim is active,
trim_column_ends calls rstrip on each csv row, which is a list without
that method, so iteration raises AttributeError instead of stripping
trailing whitespace and no row is ever emitted (second conjunct). -/
theorem row_pipeline_order_eval :
    iterrows
        (mkSimpleReader
          [("skipRows", JVal.num 1), ("skipBlankRows", JVal.bool true),
           ("skipColumns", JVal.num 1)]
          [["SKIPPED", "SKIPPED"], ["", ""], ["#c", "ID"], ["x", "ID"],
           ["y", "#v"], ["z", ""]])
        "ValueTable" ["id"]
      = Except.ok [[("id", "#v")], []] ∧
    iterrows (mkSimpleReader [("trim", JVal.str "end")] [["ID"], ["v1"]])
        "ValueTable" ["id"]
      = Except.error PyErr.attributeError :=
  ⟨by decide, by decide⟩

/-- C7: the claim says an active right-trim strips trailing whitespace from
every cell.  In the source, trim_column_ends evaluates row.rstrip() on
each row produced by csv.reader; those rows are Python lists, which have
no rstrip method, so the first row pulled through the trim step raises
AttributeError and nothing is trimmed.  This theorem evaluates the
embedded code at a table whose dialect sets trim to end and whose single
data cell carries trailing whitespace. -/
theorem trim_step_attribute_error_eval :
    iterrows (mkSimpleReader [("trim", JVal.str "end")] [["ID"], ["v1 "]])
        "ValueTable" ["id"]
      = Except.error PyErr.attributeError ∧
    trim_column_ends [["v1 "]] = Except.error PyErr.attributeError ∧
    trimRightActive (some (JVal.str "end")) = true :=
  ⟨by decide, by decide, by decide⟩

/-- C10: rename_columns emits exactly one Row mapping per data row,
whatever columns were requested: the output length is the input length
minus the header row, independent of the requested column set; a data row
projecting no requested column becomes an empty mapping rather than being
omitted, and a located table read with an empty requested set still emits
one (empty) mapping per data row. -/
theorem rename_columns_row_count_independent :
    (∀ (specs : List ColumnSpec) (cols : List String) (raw : List Row),
        (rename_columns specs cols raw).length = raw.length - 1) ∧
    rename_columns [] ["nope"] [["A"], ["x"]] = [[]] ∧
    iterrows (mkSimpleReader [] [["ID"], ["v1"]]) "ValueTable" [] = Except.ok [[]] := by
  refine ⟨?_, by decide, by decide⟩
  intro specs cols raw
  cases raw with
  | nil => simp [rename_columns]
  | cons hrow rest => simp [rename_columns]

/-- C4: each recognized dialect field resolves to the first defined value
walking table dialect, then document dialect, then the built-in defaults,
independently per field; the defaults are the claimed ones with trim (and
headerRowCount) left unset; a document-level semicolon delimiter without a
table override resolves to the semicolon, a table-level comma override
wins regardless of the document value, and that partial table override
leaves sibling fields (commentPrefix, header) at their defaults. -/
theorem dialect_resolution_precedence :
    (∀ (t : TableDesc) (md : CldfMd) (k : String),
        resolve_dialect t md k
          = ((dictGet t.dialect k).orElse
              (fun _ => (dictGet md.dialect k).orElse
                (fun _ => dictGet default_dialect k)))) ∧
    dictGet default_dialect "commentPrefix" = some (JVal.str "#") ∧
    dictGet default_dialect "delimiter" = some (JVal.str ",") ∧
    dictGet default_dialect "doubleQuote" = some (JVal.bool true) ∧
    dictGet default_dialect "encoding" = some (JVal.str "utf-8") ∧
    dictGet default_dialect "header" = some (JVal.bool true) ∧
    dictGet default_dialect "quoteChar" = some (JVal.str "\"") ∧
    dictGet default_dialect "skipBlankRows" = some (JVal.bool false) ∧
    dictGet default_dialect "skipColumns" = some (JVal.num 0) ∧
    dictGet default_dialect "skipRows" = some (JVal.num 0) ∧
    dictGet default_dialect "skipInitialSpace" = some (JVal.bool false) ∧
    dictGet default_dialect "trim" = none ∧
    dictGet default_dialect "headerRowCount" = none ∧
    resolve_dialect tblPlain mdSemi "delimiter" = some (JVal.str ";") ∧
    resolve_dialect tblComma mdSemi "delimiter" = some (JVal.str ",") ∧
    resolve_dialect tblComma mdSemi "commentPrefix" = some (JVal.str "#") ∧
    resolve_dialect tblComma mdSemi "header" = some (JVal.bool true) := by
  refine ⟨?_, by decide⟩
  intro t md k
  cases h1 : dictGet t.dialect k with
  | some v => simp [resolve_dialect, chainGet, h1, Option.orElse]
  | none =>
    cases h2 : dictGet md.dialect k with
    | some v => simp [resolve_dialect, chainGet, h1, h2, Option.orElse]
    | none =>
      cases h3 : dictGet default_dialect k with
      | some v => simp [resolve_dialect, chainGet, h1, h2, h3, Option.orElse]
      | none => simp [resolve_dialect, chainGet, h1, h2, h3, Option.orElse]

/-- Inserting a key that is not yet present appends the pair at the end. -/
lemma dictInsertS_of_not_mem (d : SDict) (k v : String)
    (h : ∀ p ∈ d, p.1 ≠ k) : dictInsertS d k v = d ++ [(k, v)] := by
  have ha : d.any (fun p => decide (p.1 = k)) = false := by
    simp only [List.any_eq_false, decide_eq_true_eq]
    exact h
  simp [dictInsertS, ha]

/-- The row-emission fold of rowDict with an explicit accumulator: when all
keys in sight are distinct, it appends exactly the qualifying pairs in
order. -/
lemma rowDict_fold_eq_filter (cols : List String) :
    ∀ (ps : List (String × String)) (d : SDict),
      ((d ++ ps).map Prod.fst).Nodup →
      ps.foldl
          (fun d p =>
            if p.1 ≠ "" ∧ p.2 ≠ "" ∧ p.1 ∈ cols then dictInsertS d p.1 p.2 else d)
          d
        = d ++ ps.filter (fun p => decide (p.1 ≠ "" ∧ p.2 ≠ "" ∧ p.1 ∈ cols)) := by
  intro ps
  induction ps with
  | nil => intro d _; simp
  | cons p ps ih =>
    intro d h
    have hsub : ((d ++ ps).map Prod.fst).Nodup := by
      refine List.Nodup.sublist ?_ h
      exact List.Sublist.map _ (List.Sublist.append_left (List.sublist_cons_self p ps) d)
    by_cases hq : p.1 ≠ "" ∧ p.2 ≠ "" ∧ p.1 ∈ cols
    · have hnotin : ∀ q ∈ d, q.1 ≠ p.1 := by
        intro q hqd
        have hd : (d.map Prod.fst).Disjoint ((p :: ps).map Prod.fst) := by
          rw [List.map_append] at h
          exact (List.nodup_append.mp h).2.2
        intro heq
        exact hd (List.mem_map_of_mem Prod.fst hqd)
          (by simp [heq.symm])
      have hins : dictInsertS d p.1 p.2 = d ++ [p] := by
        rw [dictInsertS_of_not_mem d p.1 p.2 hnotin]
      have hnd2 : (((d ++ [p]) ++ ps).map Prod.fst).Nodup := by
        simpa [List.append_assoc] using h
      rw [List.foldl_cons, if_pos hq, hins, ih (d ++ [p]) hnd2,
        List.filter_cons_of_pos (by simpa using hq)]
      simp
    · rw [List.foldl_cons, if_neg hq, ih d hsub,
        List.filter_cons_of_neg (by simpa using hq)]

/-- The header cells of a zipped header and data row form a sublist of the
header. -/
lemma map_fst_zip_sublist : ∀ (l : List String) (l2 : List String),
    ((l.zip l2).map Prod.fst).Sublist l := by
  intro l
  induction l with
  | nil => intro l2; simp
  | cons a l ih =>
    intro l2
    cases l2 with
    | nil => simp
    | cons b l2 => simpa using (ih l2).cons₂ a

/-- With a duplicate-free header, the emitted Row mapping is exactly the
qualifying pairs of the zipped header and data row. -/
lemma rowDict_eq_filter (header : List String) (cols : List String) (row : Row)
    (h : header.Nodup) :
    rowDict header cols row
      = (header.zip row).filter
          (fun p => decide (p.1 ≠ "" ∧ p.2 ≠ "" ∧ p.1 ∈ cols)) := by
  have hnd : ((header.zip row).map Prod.fst).Nodup :=
    List.Nodup.sublist (map_fst_zip_sublist header row) h
  have := rowDict_fold_eq_filter cols (header.zip row) [] (by simpa using hnd)
  simpa [rowDict] using this

/-- C3: for a data row emitted by rename_columns under a duplicate-free
effective header (the well-formedness CSVW guarantees), a pair is in the
Row mapping iff it is one of the positional header-cell pairs with a
non-empty name, a non-empty value and a requested name — where the header
names are the raw cells renamed through name_map, i.e. replaced by the
requested semantic name exactly when a declared column of that raw name
carries the matching property URL.  The concrete conjuncts check the
round-trips of the spec: requesting id against the mapped header projects
the first cell under the semantic name; requesting the raw unmapped name
my_custom_col projects the third cell under the raw name; an empty cell of
a requested column produces no key at all. -/
theorem rename_columns_projection_contract :
    (∀ (specs : List ColumnSpec) (cols : List String) (hrow drow : Row),
        (mapHeader (name_map specs cols) hrow).Nodup →
        ∀ n v,
          ((n, v) ∈ rowDict (mapHeader (name_map specs cols) hrow) cols drow ↔
            ((n, v) ∈ (mapHeader (name_map specs cols) hrow).zip drow ∧
             n ≠ "" ∧ v ≠ "" ∧ n ∈ cols))) ∧
    rename_columns rtSpecs ["id"]
        [["my_id_col", "my_language_col", "my_custom_col"], ["a", "b", "c"]]
      = [[("id", "a")]] ∧
    rename_columns rtSpecs ["my_custom_col"]
        [["my_id_col", "my_language_col", "my_custom_col"], ["a", "b", "c"]]
      = [[("my_custom_col", "c")]] ∧
    rename_columns rtSpecs ["id"]
        [["my_id_col", "my_language_col", "my_custom_col"], ["", "b", "c"]]
      = [[]] := by
  refine ⟨?_, by decide, by decide, by decide⟩
  intro specs cols hrow drow hnd n v
  rw [rowDict_eq_filter _ _ _ hnd]
  simp [List.mem_filter, decide_eq_true_eq, and_assoc]

/-- Witness for rename_columns_projection_contract at the round-trip
header: the pair of semantic name id and cell value a is in the Row
mapping projected from the spec's example row. -/
theorem rename_columns_projection_contract_witness :
    ("id", "a") ∈ rowDict
        (mapHeader (name_map rtSpecs ["id"])
          ["my_id_col", "my_language_col", "my_custom_col"])
        ["id"] ["a", "b", "c"] :=
  (rename_columns_projection_contract.1 rtSpecs ["id"]
      ["my_id_col", "my_language_col", "my_custom_col"] ["a", "b", "c"]
      (by decide) "id" "a").mpr (by decide)

/-- C5: table location consumes one leading parent-directory marker per
step while moving the base directory one level up (runs of consecutive
markers are handled, as in the concrete double-parent conjunct), stops as
soon as the path no longer starts with a parent marker, then consults the
archive index first for the resolved path with a .zip suffix appended and
only on a miss for the path as-is; in the nested scenario of the spec —
the index contains only a/b.csv.zip, a nested archive holding inner entry
b.csv — iterrows yields the inner CSV's rows. -/
theorem table_location_resolution :
    (∀ (cs : List Char) (root : SegPath),
        stripParentsAux ('.' :: '.' :: '/' :: cs) root
          = stripParentsAux cs root.dropLast) ∧
    (∀ (cs : List Char) (root : SegPath),
        leadsParent cs = false → stripParentsAux cs root = (cs, root)) ∧
    stripParentsAux ("../../x.csv".toList) ["a", "b", "c"]
      = ("x.csv".toList, ["a"]) ∧
    (∀ (infos : List (SegPath × ZipInfo)) (root : SegPath) (relpath : String)
        (zi : ZipInfo),
        pathGet infos (pathJoin root (relpath ++ ".zip")) = some zi →
        locate_zip_info infos root relpath = some zi) ∧
    (∀ (infos : List (SegPath × ZipInfo)) (root : SegPath) (relpath : String),
        pathGet infos (pathJoin root (relpath ++ ".zip")) = none →
        locate_zip_info infos root relpath = pathGet infos (pathJoin root relpath)) ∧
    iterrows (mkNestedReader [("b.csv", [["ID"], ["a1"]])]) "ValueTable" ["id"]
      = Except.ok [[("id", "a1")]] := by
  refine ⟨fun cs root => rfl, ?_, by decide, ?_, ?_, by decide⟩
  · intro cs root h
    rw [stripParentsAux.eq_def]
    split
    · simp [leadsParent] at h
    · rfl
  · intro infos root relpath zi h
    simp [locate_zip_info, h]
  · intro infos root relpath h
    simp [locate_zip_info, h]

/-- Witness for table_location_resolution: the zip-suffixed lookup of the
nested scenario and the stop condition at a parent-free path, at concrete
inputs. -/
theorem table_location_resolution_witness :
    locate_zip_info [(["a", "b.csv.zip"], { filename := "a/b.csv.zip" })] [] "a/b.csv"
      = some { filename := "a/b.csv.zip" } ∧
    stripParentsAux ("x.csv".toList) ["a"] = ("x.csv".toList, ["a"]) :=
  ⟨table_location_resolution.2.2.2.1 _ _ _ _ (by decide),
   table_location_resolution.2.1 _ _ (by decide)⟩

/-- C6 counterexample: a declared table whose backing file is absent from
the archive index in both forms does not always yield an empty sequence —
the dialect assertions run before table location, so a table whose dialect
sets header to false raises AssertionError even though its file is
missing. -/
theorem missing_file_bad_dialect_raises :
    iterrows (mkMissingReader [("header", JVal.bool false)]) "ValueTable" []
      = Except.error (PyErr.assertionError "dataset without header detected") ∧
    iterrows (mkMissingReader [("header", JVal.bool false)]) "ValueTable" []
      ≠ Except.ok [] :=
  ⟨by decide, by decide⟩

/-- C6 amended: for every table name whose semantic table-type URL is not
declared in the document, iterrows yields an empty sequence and never
raises; and for every declared table whose resolved backing path is in the
archive index in neither the .zip-suffixed nor the plain form, iterrows
yields an empty sequence provided the resolved dialect passes the header
and headerRowCount assertions (which run before table location). -/
theorem missing_table_and_file_zero_rows :
    (∀ (r : ZipDataReader) (name : String) (cols : List String),
        get_table r.cldf_md name = none → iterrows r name cols = Except.ok []) ∧
    (∀ (r : ZipDataReader) (name : String) (cols : List String) (t : TableDesc),
        get_table r.cldf_md name = some t →
        truthy (resolve_dialect t r.cldf_md "header") = true →
        hrcAssertFails (resolve_dialect t r.cldf_md "headerRowCount") = false →
        locate_zip_info r.zip_infos (stripParentsAux t.url.toList r.md_root).2
            (String.mk (stripParentsAux t.url.toList r.md_root).1) = none →
        iterrows r name cols = Except.ok []) := by
  constructor
  · intro r name cols h
    simp [iterrows, h]
  · intro r name cols t hget hh hhrc hloc
    simp only [String.toList] at hloc
    simp [iterrows, hget, hh, hhrc, hloc]

/-- Witness for missing_table_and_file_zero_rows: an undeclared FormTable
and a declared ValueTable whose values.csv is absent from an empty archive
index both produce zero rows. -/
theorem missing_table_and_file_zero_rows_witness :
    iterrows (mkMissingReader []) "FormTable" [] = Except.ok [] ∧
    iterrows (mkMissingReader []) "ValueTable" [] = Except.ok [] :=
  ⟨missing_table_and_file_zero_rows.1 (mkMissingReader []) "FormTable" [] (by decide),
   missing_table_and_file_zero_rows.2 (mkMissingReader []) "ValueTable" []
     (simpleTable []) (by decide) (by decide) (by decide) (by decide)⟩

/-- C8 counterexample: when the nested archive holds no inner entry whose
name ends with the final path component of the table url, iterrows does
not surface zero rows — the unguarded next() raises StopIteration, which
Python converts to RuntimeError inside a generator, and the exception
propagates to the caller. -/
theorem nested_zip_no_match_raises :
    iterrows (mkNestedReader [("readme.txt", [["ID"], ["a1"]])]) "ValueTable" ["id"]
      = Except.error PyErr.runtimeError ∧
    iterrows (mkNestedReader [("readme.txt", [["ID"], ["a1"]])]) "ValueTable" ["id"]
      ≠ Except.ok [] :=
  ⟨by decide, by decide⟩

/-- C8 amended: when the located entry's name ends in .zip the reader opens
it as a nested archive and selects the first inner entry (in archive
listing order) whose name ends with the final component of the table url —
first conjunct: with two matching entries one/b.csv and two/b.csv the rows
of the first are used; second conjunct: a single matching entry is used;
third conjunct: when no inner entry matches, iterrows raises (RuntimeError
from the unguarded next() inside the generator) instead of yielding zero
rows.  Under the default dialect the surviving pipeline work is the
hash-comment filter followed by projection. -/
theorem nested_zip_selection :
    (∀ (rows1 rows2 : List Row) (cols : List String),
        iterrows (mkNestedReader [("one/b.csv", rows1), ("two/b.csv", rows2)])
            "ValueTable" cols
          = Except.ok (rename_columns nestedCols cols (dropHashComments rows1))) ∧
    (∀ (rows : List Row) (cols : List String),
        iterrows (mkNestedReader [("b.csv", rows)]) "ValueTable" cols
          = Except.ok (rename_columns nestedCols cols (dropHashComments rows))) ∧
    (∀ (rows : List Row) (cols : List String),
        iterrows (mkNestedReader [("weird.txt", rows)]) "ValueTable" cols
          = Except.error PyErr.runtimeError) :=
  ⟨fun _ _ _ => rfl, fun _ _ => rfl, fun _ _ => rfl⟩

/-- C9: get_cldf_json returns a parsed document exactly when the input
qualifies — the first ten bytes, left-stripped of ASCII whitespace, begin
with an opening brace (byte 123), json.load succeeds, and the parsed
dc:conformsTo member passes the profile check (a string starting with the
terms namespace root) — and is a total function, so parse exceptions,
failed sniffs and profile mismatches yield none rather than raising. -/
theorem get_cldf_json_contract :
    ∀ (f : PyFile) (d : JsonDoc),
      get_cldf_json f = some d ↔
        (((f.bytes.take 10).dropWhile isWsByte).head? = some 123 ∧
         f.parsed = some d ∧ conformsOK d = true) := by
  intro f d
  by_cases hs : ((f.bytes.take 10).dropWhile isWsByte).head? = some 123
  · cases hp : f.parsed with
    | none => simp [get_cldf_json, hs, hp]
    | some e =>
      by_cases hc : conformsOK e = true
      · simp [get_cldf_json, hs, hp, hc]
        intro h
        rw [h] at hc
        exact hc
      · have hc2 : conformsOK e = false := by simpa using hc
        simp [get_cldf_json, hs, hp, hc2]
        rintro rfl
        simp [hc2]
  · simp [get_cldf_json, hs]
